import Mathlib

/-!
Shallow embedding of the `aps` authorized-transport package (Go).

The package wraps outgoing HTTP requests with an `Authorization` header,
refreshing the OAuth2 token through a `TokenFetcher` when the stored token
is missing or expired.

Modelling conventions:
* `time.Time` is modelled as `Int`; the zero time (`IsZero`) is the value `0`
  and `a.Before b` is `a < b`.  `time.Now()` is passed in as an explicit
  `now : Int` parameter, since the Go code reads the wall clock.
* A Go pointer that may be `nil` is modelled as an `Option`; dereferencing a
  `nil` pointer (a runtime panic in Go) is modelled by a distinguished
  outcome (`none` for `Expired`, `RTResult.nilPanic` for the round trip).
* Go slices alias: `[]string` header values are modelled as references
  (`Nat` indices) into an explicit heap of string lists, so that sharing of
  slice storage between a request and its clone is observable.
* The `TokenFetcher` interface and `DefaultTransport` are declared outside
  this file's source; the fetcher is a parameter
  `Option Token → Except E (Option Token)` (it returns a token pointer and
  an error), and dispatching to `DefaultTransport` is modelled by returning
  the request that would be handed to it.
-/

namespace Aps

/-- Model of `oauth2.Token` restricted to the four fields the package reads and
copies: `AccessToken`, `TokenType`, `RefreshToken`, `Expiry`
(`Expiry = 0` models the zero `time.Time`, for which `IsZero` holds). -/
structure Token where
  AccessToken : String
  TokenType : String
  RefreshToken : String
  Expiry : Int
deriving DecidableEq

/-- Constant `defaultTokenType = "Bearer"`. -/
def defaultTokenType : String := "Bearer"

/-- Predicate `Expired(t *oauth2.Token) bool`.  The argument is a pointer, so the
field access `t.AccessToken` on a `nil` pointer panics: that is modelled by
returning `none`.  On a non-nil token the function returns `true` when the
access token is empty, `false` when no expiry is set, and otherwise
compares the expiry with the current time. -/
def Expired (t : Option Token) (now : Int) : Option Bool :=
  match t with
  | none => none
  | some tok =>
    some (if tok.AccessToken = "" then true
          else if tok.Expiry = 0 then false
          else decide (tok.Expiry < now))

/-- The guard `token == nil || Expired(token)` used by `RoundTrip`
(line 67).  Go's `||` short-circuits, so `Expired` is never called on a
`nil` token; the `nil` case yields `true` directly. -/
def nilOrExpired (t : Option Token) (now : Int) : Bool :=
  match t with
  | none => true
  | some tok => (Expired (some tok) now).getD false

/-- Heap of `[]string` slice cells; a `Nat` is a slice reference.  Go header
maps (`http.Header = map[string][]string`) store slice references, so two
maps can alias the same slice cell. -/
abbrev Heap := List (List String)

/-- Model of `http.Header` as an association list from header key to a slice
reference.  Go maps have at most one entry per key. -/
abbrev HeaderMap := List (String × Nat)

/-- Map lookup `h[k]` on the association list. -/
def lookupAssoc (h : HeaderMap) (k : String) : Option Nat :=
  match h with
  | [] => none
  | (k', r) :: rest => if k' = k then some r else lookupAssoc rest k

/-- Map update `h[k] = r`: replace the entry for `k`, or add one. -/
def setAssoc (h : HeaderMap) (k : String) (r : Nat) : HeaderMap :=
  match h with
  | [] => [(k, r)]
  | (k', r') :: rest => if k' = k then (k, r) :: rest else (k', r') :: setAssoc rest k r

/-- Model of `http.Request` restricted to what the package touches: the `Header`
map, plus one opaque field `rest` standing for all the other struct fields
(method, URL, body, ...) that `cloneRequest` copies shallowly. -/
structure Request where
  Header : HeaderMap
  rest : String
deriving DecidableEq

/-- The value list stored for key `k`: dereference the slice reference in
the heap (`none` when the key is absent). -/
def headerValues (heap : Heap) (r : Request) (k : String) : Option (List String) :=
  (lookupAssoc r.Header k).map (fun ref => heap.getD ref [])

/-- Accessor `Header.Get(k)`: the first value of the list for `k`, if any. -/
def headerGet (heap : Heap) (r : Request) (k : String) : Option String :=
  (headerValues heap r k).bind List.head?

/-- Mutator `r.Header.Set(k, v)`: allocates a fresh one-element slice `[]string{v}`
(a new heap cell) and binds `k` to it in `r`'s own map.  (Key
canonicalisation is omitted: the package only sets the already-canonical
key `"Authorization"`.) -/
def headerSet (heap : Heap) (r : Request) (k v : String) : Heap × Request :=
  (heap ++ [[v]], ⟨setAssoc r.Header k heap.length, r.rest⟩)

/-- The loop `for k, s := range r.Header { r2.Header[k] = s }` (lines
134-136): each key of `r`'s map is inserted into the fresh map `r2.Header`
bound to the same slice reference `s` — the map is new, the slices are
shared. -/
def copyHeader (h : HeaderMap) : HeaderMap :=
  h.foldl (fun acc kv => setAssoc acc kv.1 kv.2) []

/-- Function `cloneRequest(r)`: shallow copy of the struct (`*r2 = *r`), then a
fresh `Header` map populated key-by-key with the original's slice
references. -/
def cloneRequest (r : Request) : Request :=
  ⟨copyHeader r.Header, r.rest⟩

/-- Formalisation of the claim's phrase "the clone's header value lists
share no storage with the original's": no key of `r` and key of `r2` are
bound to the same slice reference. -/
def sharesNoHeaderStorage (r r2 : Request) : Prop :=
  ∀ k k' ref ref', (k, ref) ∈ r.Header → (k', ref') ∈ r2.Header → ref ≠ ref'

/-- Lines 79-84 of `RoundTrip`: clone the request, compute the scheme
(`token.TokenType`, defaulting to `"Bearer"` when empty) and set
`Authorization: <typ> <AccessToken>` on the clone. -/
def authorize (heap : Heap) (req : Request) (tok : Token) : Heap × Request :=
  let req2 := cloneRequest req
  let typ := if tok.TokenType = "" then defaultTokenType else tok.TokenType
  headerSet heap req2 "Authorization" (typ ++ " " ++ tok.AccessToken)

/-- Method `RefreshToken`: under the exclusive lock, call
`t.fetcher.FetchToken(t.token)`; on error return it, leaving `t.token`
untouched; on success store the returned token pointer (which may be nil)
in `t.token`.  Sequential state-passing model: `Except.ok st1` is success
with new stored token `st1`, `Except.error e` leaves the caller's state
as it was. -/
def refreshToken {E : Type} (fetcher : Option Token → Except E (Option Token))
    (st : Option Token) : Except E (Option Token) :=
  match fetcher st with
  | Except.error e => Except.error e
  | Except.ok token => Except.ok token

/-- Outcome of one `RoundTrip` call: the error returned without sending,
a nil-pointer dereference (Go panic), or the decorated request handed to
`DefaultTransport.RoundTrip` (whose response is external to this file's
source). -/
inductive RTResult (E : Type) where
  | error (e : E)
  | nilPanic
  | dispatch (req : Request)
deriving DecidableEq

/-- Result of `RoundTrip` together with the transport's stored token, the
slice heap after the call, and how many times the fetcher was invoked. -/
structure RTOut (E : Type) where
  result : RTResult E
  token : Option Token
  heap : Heap
  fetchCalls : Nat

/-- Method `RoundTrip` (lines 65-87), sequential model.  Read the current token;
if it is nil or expired, refresh (propagating a refresh error without
sending) and re-read the token; then dereference the token pointer
(panicking if it is nil), clone and decorate the request, and dispatch the
clone.  `now` models `time.Now()` inside `Expired`. -/
def roundTrip {E : Type} (fetcher : Option Token → Except E (Option Token))
    (st : Option Token) (now : Int) (heap : Heap) (req : Request) : RTOut E :=
  let token := st
  let step : Except E (Option Token × Option Token × Nat) :=
    if nilOrExpired token now then
      match refreshToken fetcher st with
      | Except.error e => Except.error e
      | Except.ok st1 => Except.ok (st1, st1, 1)
    else Except.ok (token, st, 0)
  match step with
  | Except.error e => ⟨RTResult.error e, st, heap, 1⟩
  | Except.ok (token, st1, n) =>
    match token with
    | none => ⟨RTResult.nilPanic, st1, heap, n⟩
    | some tok =>
      let hr := authorize heap req tok
      ⟨RTResult.dispatch hr.2, st1, hr.1, n⟩

/-- Heap of `oauth2.Token` cells; the transport's `token` field is a
pointer `Option Nat` into it.  Used to model the `Token()` accessor, which
allocates a fresh cell and copies the four fields into it. -/
abbrev TokenHeap := List Token

/-- Method `Token()` (lines 90-103): return nil if no token is stored; otherwise
allocate a new `oauth2.Token` copying `AccessToken`, `TokenType`,
`RefreshToken` and `Expiry` from the stored cell, and return a pointer to
the fresh cell. -/
def getToken (heap : TokenHeap) (stored : Option Nat) : TokenHeap × Option Nat :=
  match stored with
  | none => (heap, none)
  | some p =>
    let t := heap.getD p ⟨"", "", "", 0⟩
    (heap ++ [⟨t.AccessToken, t.TokenType, t.RefreshToken, t.Expiry⟩], some heap.length)

/-- The token value seen through a pointer: what a caller reading the
fields observes. -/
def observeToken (heap : TokenHeap) (ptr : Option Nat) : Option Token :=
  ptr.map (fun p => heap.getD p ⟨"", "", "", 0⟩)

/-- A fetcher that succeeds but returns a nil token pointer (allowed by
the `FetchToken` signature). -/
def badFetcher : Option Token → Except String (Option Token) :=
  fun _ => Except.ok none

/-- A one-header request used as concrete input. -/
def req0 : Request := ⟨[("X-Test", 0)], "GET"⟩

end Aps

namespace Aps

/-! ### Helper lemmas -/

/-- A successful `lookupAssoc` finds an entry of the list. -/
theorem lookupAssoc_mem {h : HeaderMap} {k : String} {r : Nat}
    (hl : lookupAssoc h k = some r) : (k, r) ∈ h := by
  induction h with
  | nil => simp [lookupAssoc] at hl
  | cons kv rest ih =>
    obtain ⟨k', r'⟩ := kv
    by_cases hk : k' = k
    · subst hk
      simp [lookupAssoc] at hl
      subst hl
      exact List.mem_cons_self _ _
    · simp only [lookupAssoc, if_neg hk] at hl
      exact List.mem_cons_of_mem _ (ih hl)

/-- Looking up the key just written by `setAssoc` returns the new value. -/
theorem lookupAssoc_setAssoc (h : HeaderMap) (k : String) (r : Nat) :
    lookupAssoc (setAssoc h k r) k = some r := by
  induction h with
  | nil => simp [setAssoc, lookupAssoc]
  | cons kv rest ih =>
    obtain ⟨k', r'⟩ := kv
    by_cases hk : k' = k
    · simp [setAssoc, hk, lookupAssoc]
    · simp [setAssoc, hk, lookupAssoc, ih]

/-- Reading below the end of a list is unaffected by appending one cell. -/
theorem getD_append_one {α : Type} (l l' : List α) (d : α) (n : Nat)
    (h : n < l.length) : (l ++ l').getD n d = l.getD n d :=
  List.getD_append l l' d n h

/-- Reading the cell just appended at the end of the list. -/
theorem getD_append_self {α : Type} (l : List α) (x d : α) :
    (l ++ [x]).getD l.length d = x := by
  rw [List.getD_append_right _ _ _ _ (Nat.le_refl _), Nat.sub_self]
  rfl

/-- Appending a fresh cell to the heap does not change any header value of
a request whose references all lie inside the old heap. -/
theorem headerValues_append_cell (heap : Heap) (cell : List String)
    (r : Request) (k : String) (hwf : ∀ kv ∈ r.Header, kv.2 < heap.length) :
    headerValues (heap ++ [cell]) r k = headerValues heap r k := by
  unfold headerValues
  cases hl : lookupAssoc r.Header k with
  | none => rfl
  | some ref =>
    have href : ref < heap.length := hwf (k, ref) (lookupAssoc_mem hl)
    rw [Option.map_some', Option.map_some', List.getD_append _ _ _ _ href]

/-- Inserting a key absent from the map appends the entry at the end. -/
theorem setAssoc_of_not_mem (acc : HeaderMap) (k : String) (r : Nat)
    (h : ∀ kv ∈ acc, kv.1 ≠ k) : setAssoc acc k r = acc ++ [(k, r)] := by
  induction acc with
  | nil => rfl
  | cons kv rest ih =>
    obtain ⟨k', r'⟩ := kv
    have hk : k' ≠ k := h (k', r') (List.mem_cons_self _ _)
    simp only [setAssoc, if_neg hk, List.cons_append, List.cons.injEq, true_and]
    exact ih (fun kv hkv => h kv (List.mem_cons_of_mem _ hkv))

/-- Folding `setAssoc` over entries whose keys are new and mutually
distinct just appends them. -/
theorem foldl_setAssoc_append (h : HeaderMap) :
    ∀ acc : HeaderMap, (∀ kv ∈ h, ∀ kv' ∈ acc, kv'.1 ≠ kv.1) →
    (h.map Prod.fst).Nodup →
    h.foldl (fun a kv => setAssoc a kv.1 kv.2) acc = acc ++ h := by
  induction h with
  | nil => intro acc _ _; simp
  | cons kv rest ih =>
    intro acc hdisj hnd
    rw [List.map_cons, List.nodup_cons] at hnd
    rw [List.foldl_cons,
      setAssoc_of_not_mem acc kv.1 kv.2
        (fun kv' h' => hdisj kv (List.mem_cons_self _ _) kv' h'),
      ih (acc ++ [kv]) ?_ hnd.2]
    · simp
    · intro kv2 h2 kv' h'
      rcases List.mem_append.1 h' with h' | h'
      · exact hdisj kv2 (List.mem_cons_of_mem _ h2) kv' h'
      · rw [List.mem_singleton] at h'
        subst h'
        intro hc
        exact hnd.1 (hc ▸ List.mem_map_of_mem Prod.fst h2)

/-- With the keys of a Go map pairwise distinct, `copyHeader` rebuilds the
same association list (bound to the same slice references). -/
theorem copyHeader_eq (h : HeaderMap) (hnd : (h.map Prod.fst).Nodup) :
    copyHeader h = h := by
  have := foldl_setAssoc_append h [] (by intro kv _ kv' h'; cases h') hnd
  simpa [copyHeader] using this

/-- The request decorated by `authorize` carries exactly the
`Authorization: <typ> <AccessToken>` header. -/
theorem headerGet_authorize (heap : Heap) (req : Request) (tok : Token) :
    headerGet (authorize heap req tok).1 (authorize heap req tok).2 "Authorization"
      = some ((if tok.TokenType = "" then defaultTokenType else tok.TokenType)
               ++ " " ++ tok.AccessToken) := by
  simp [authorize, headerSet, headerGet, headerValues, lookupAssoc_setAssoc,
    getD_append_self]

/-! ### Claims -/

/-- C2: counterexample.  The claim says `Expired` applied to a
null-equivalent token returns `true`; in the code `Expired(nil)`
dereferences the nil pointer (`t.AccessToken`) and faults, modelled here
by `none`.  At the concrete input `nil` (with `now = 0`) the result is the
fault, not `true`. -/
theorem Expired_nil_faults : Expired none 0 = none ∧ Expired none 0 ≠ some true := by
  constructor
  · rfl
  · intro h
    simp [Expired] at h

/-- C2 (amended): `Expired` itself faults on a nil token; the null case is
instead handled at its only call site, where the short-circuit guard
`token == nil || Expired(token)` treats a nil token as expired (returns
`true`) without ever invoking `Expired`. -/
theorem nilOrExpired_nil (now : Int) : nilOrExpired none now = true := rfl

/-- C4: for every non-null token `T`: `Expired` is `true` whenever
`T.AccessToken` is empty, regardless of expiry; if the access token is
non-empty and no expiry is set (`Expiry = 0`, the zero time) the result is
`false`; and if the access token is non-empty and an expiry is set, the
result is `true` exactly when the expiry is before the current time. -/
theorem Expired_cases (t : Token) (now : Int) :
    (t.AccessToken = "" → Expired (some t) now = some true) ∧
    (t.AccessToken ≠ "" → t.Expiry = 0 → Expired (some t) now = some false) ∧
    (t.AccessToken ≠ "" → t.Expiry ≠ 0 →
      (Expired (some t) now = some true ↔ t.Expiry < now)) := by
  refine ⟨fun h => ?_, fun h1 h2 => ?_, fun h1 h2 => ?_⟩
  · simp [Expired, h]
  · simp [Expired, h1, h2]
  · simp [Expired, h1, h2]

/-- C4 witness: the three cases of `Expired_cases` evaluated at concrete
tokens and time `now = 5`. -/
theorem Expired_cases_witness :
    Expired (some ⟨"", "", "", 9⟩) 5 = some true ∧
    Expired (some ⟨"a", "", "", 0⟩) 5 = some false ∧
    Expired (some ⟨"a", "", "", 3⟩) 5 = some true := by
  refine ⟨(Expired_cases ⟨"", "", "", 9⟩ 5).1 rfl,
          (Expired_cases ⟨"a", "", "", 0⟩ 5).2.1 (by decide) rfl,
          ((Expired_cases ⟨"a", "", "", 3⟩ 5).2.2 (by decide) (by decide)).2 (by decide)⟩

end Aps

namespace Aps

/-- Reading a list at an index other than the one just written by `set`
is unchanged. -/
theorem getD_set_ne {α : Type} (l : List α) (m n : Nat) (a d : α)
    (h : m ≠ n) : (l.set m a).getD n d = l.getD n d := by
  rw [List.getD_eq_getD_get?, List.getD_eq_getD_get?, List.get?_set_ne a _ h]

/-- C1: counterexample.  In `cloneRequest` the loop body `r2.Header[k] = s`
copies the slice reference, not the slice: for the one-header request
`req0` (key `"X-Test"` bound to slice cell `0`) the clone's entry for
`"X-Test"` is bound to the very same cell `0`, so the clone's header value
lists do share storage with the original's, contrary to the claim. -/
theorem cloneRequest_shares_storage :
    ¬ sharesNoHeaderStorage req0 (cloneRequest req0) := by
  intro h
  exact h "X-Test" "X-Test" 0 0 (by decide) (by decide) rfl

/-- C1 (amended): the clone produced by `cloneRequest` is a shallow copy of
the request's fields together with a fresh header map in which every key is
bound to the original's slice reference — the value lists are shared, not
duplicated; nevertheless, setting a header on the clone allocates a fresh
slice cell and rebinds only the clone's own map, so every header value of
the caller's original request is unchanged. -/
theorem cloneRequest_amended (heap : Heap) (r : Request) (k v key : String)
    (hnd : (r.Header.map Prod.fst).Nodup)
    (hwf : ∀ kv ∈ r.Header, kv.2 < heap.length) :
    (cloneRequest r).rest = r.rest ∧
    (cloneRequest r).Header = r.Header ∧
    headerValues (headerSet heap (cloneRequest r) k v).1 r key
      = headerValues heap r key := by
  refine ⟨rfl, copyHeader_eq r.Header hnd, ?_⟩
  show headerValues (heap ++ [[v]]) r key = headerValues heap r key
  exact headerValues_append_cell heap [v] r key hwf

/-- C1 witness: the amended statement evaluated on the one-header request
`req0` over the one-cell heap `[["a"]]`. -/
theorem cloneRequest_amended_witness :
    (cloneRequest req0).rest = req0.rest ∧
    (cloneRequest req0).Header = req0.Header ∧
    headerValues (headerSet [["a"]] (cloneRequest req0) "Authorization" "Bearer x").1
        req0 "X-Test"
      = headerValues [["a"]] req0 "X-Test" :=
  cloneRequest_amended [["a"]] req0 "Authorization" "Bearer x" "X-Test"
    (by decide) (by decide)

/-- C5: with a nil-or-expired stored token and a fetcher failing with `e`,
the round trip returns exactly `e`, leaves the stored token and the slice
heap unchanged, and never dispatches a request to the underlying
transport. -/
theorem roundTrip_refresh_error {E : Type}
    (fetcher : Option Token → Except E (Option Token))
    (st : Option Token) (now : Int) (heap : Heap) (req : Request) (e : E)
    (hexp : nilOrExpired st now = true) (hf : fetcher st = Except.error e) :
    roundTrip fetcher st now heap req = ⟨RTResult.error e, st, heap, 1⟩ ∧
    ∀ r2, (roundTrip fetcher st now heap req).result ≠ RTResult.dispatch r2 := by
  have h1 : roundTrip fetcher st now heap req = ⟨RTResult.error e, st, heap, 1⟩ := by
    simp [roundTrip, refreshToken, hexp, hf]
  refine ⟨h1, ?_⟩
  rw [h1]
  intro r2 hc
  exact RTResult.noConfusion hc

/-- C5 witness: a transport with no stored token and an always-failing
fetcher. -/
theorem roundTrip_refresh_error_witness :
    roundTrip (fun _ => (Except.error "boom" : Except String (Option Token)))
        none 0 [] req0
      = ⟨RTResult.error "boom", none, [], 1⟩ ∧
    ∀ r2, (roundTrip (fun _ => (Except.error "boom" : Except String (Option Token)))
        none 0 [] req0).result ≠ RTResult.dispatch r2 :=
  roundTrip_refresh_error _ none 0 [] req0 "boom" rfl rfl

/-- C6: with a stored token that is non-nil, has a non-empty access token
and is not expired, the round trip never calls the fetcher, keeps the
stored token, and dispatches a clone carrying
`Authorization: <Type> <AccessToken>`, the type defaulting to `"Bearer"`
when the declared type is empty. -/
theorem roundTrip_valid_token {E : Type}
    (fetcher : Option Token → Except E (Option Token)) (t : Token)
    (now : Int) (heap : Heap) (req : Request)
    (hne : t.AccessToken ≠ "") (hexp : Expired (some t) now = some false) :
    (roundTrip fetcher (some t) now heap req).fetchCalls = 0 ∧
    (roundTrip fetcher (some t) now heap req).token = some t ∧
    (roundTrip fetcher (some t) now heap req).result
      = RTResult.dispatch (authorize heap req t).2 ∧
    headerGet (roundTrip fetcher (some t) now heap req).heap
        (authorize heap req t).2 "Authorization"
      = some ((if t.TokenType = "" then defaultTokenType else t.TokenType)
               ++ " " ++ t.AccessToken) := by
  have hg : nilOrExpired (some t) now = false := by
    simp [nilOrExpired, hexp]
  have hout : roundTrip fetcher (some t) now heap req
      = ⟨RTResult.dispatch (authorize heap req t).2, some t,
         (authorize heap req t).1, 0⟩ := by
    simp [roundTrip, hg]
  rw [hout]
  exact ⟨rfl, rfl, rfl, headerGet_authorize heap req t⟩

/-- C6 witness: a never-expiring token with empty declared type; the
dispatched clone carries `Authorization: Bearer tok`. -/
theorem roundTrip_valid_token_witness :
    (roundTrip (fun _ => (Except.error "unused" : Except String (Option Token)))
        (some ⟨"tok", "", "", 0⟩) 0 [] req0).fetchCalls = 0 ∧
    (roundTrip (fun _ => (Except.error "unused" : Except String (Option Token)))
        (some ⟨"tok", "", "", 0⟩) 0 [] req0).token = some ⟨"tok", "", "", 0⟩ ∧
    (roundTrip (fun _ => (Except.error "unused" : Except String (Option Token)))
        (some ⟨"tok", "", "", 0⟩) 0 [] req0).result
      = RTResult.dispatch (authorize [] req0 ⟨"tok", "", "", 0⟩).2 ∧
    headerGet (roundTrip (fun _ => (Except.error "unused" : Except String (Option Token)))
        (some ⟨"tok", "", "", 0⟩) 0 [] req0).heap
        (authorize [] req0 ⟨"tok", "", "", 0⟩).2 "Authorization"
      = some ((if (Token.mk "tok" "" "" 0).TokenType = "" then defaultTokenType
               else (Token.mk "tok" "" "" 0).TokenType)
               ++ " " ++ (Token.mk "tok" "" "" 0).AccessToken) :=
  roundTrip_valid_token _ ⟨"tok", "", "", 0⟩ 0 [] req0 (by decide) (by decide)

end Aps

namespace Aps

/-- C7: with a nil-or-expired stored token and a fetcher returning `t2`,
the round trip calls the fetcher exactly once, stores `t2` as the current
token, and dispatches a clone authorized with `t2` — with no hypothesis on
`t2`'s own validity, so an expired-looking `t2` is not re-validated. -/
theorem roundTrip_refresh_success {E : Type}
    (fetcher : Option Token → Except E (Option Token))
    (st : Option Token) (t2 : Token) (now : Int) (heap : Heap) (req : Request)
    (hexp : nilOrExpired st now = true) (hf : fetcher st = Except.ok (some t2)) :
    (roundTrip fetcher st now heap req).fetchCalls = 1 ∧
    (roundTrip fetcher st now heap req).token = some t2 ∧
    (roundTrip fetcher st now heap req).result
      = RTResult.dispatch (authorize heap req t2).2 ∧
    headerGet (roundTrip fetcher st now heap req).heap
        (authorize heap req t2).2 "Authorization"
      = some ((if t2.TokenType = "" then defaultTokenType else t2.TokenType)
               ++ " " ++ t2.AccessToken) := by
  have hout : roundTrip fetcher st now heap req
      = ⟨RTResult.dispatch (authorize heap req t2).2, some t2,
         (authorize heap req t2).1, 1⟩ := by
    simp [roundTrip, refreshToken, hexp, hf]
  rw [hout]
  exact ⟨rfl, rfl, rfl, headerGet_authorize heap req t2⟩

/-- C7 witness: the fetched token has an empty access token (it already
looks expired), yet it is stored and used to authorize the dispatched
clone without re-validation. -/
theorem roundTrip_refresh_success_witness :
    (roundTrip (fun _ => (Except.ok (some ⟨"", "", "", 0⟩) :
        Except String (Option Token))) none 0 [] req0).fetchCalls = 1 ∧
    (roundTrip (fun _ => (Except.ok (some ⟨"", "", "", 0⟩) :
        Except String (Option Token))) none 0 [] req0).token
      = some ⟨"", "", "", 0⟩ ∧
    (roundTrip (fun _ => (Except.ok (some ⟨"", "", "", 0⟩) :
        Except String (Option Token))) none 0 [] req0).result
      = RTResult.dispatch (authorize [] req0 ⟨"", "", "", 0⟩).2 ∧
    headerGet (roundTrip (fun _ => (Except.ok (some ⟨"", "", "", 0⟩) :
        Except String (Option Token))) none 0 [] req0).heap
        (authorize [] req0 ⟨"", "", "", 0⟩).2 "Authorization"
      = some ((if (Token.mk "" "" "" 0).TokenType = "" then defaultTokenType
               else (Token.mk "" "" "" 0).TokenType)
               ++ " " ++ (Token.mk "" "" "" 0).AccessToken) :=
  roundTrip_refresh_success _ none ⟨"", "", "", 0⟩ 0 [] req0 rfl rfl

/-- C8: after any round trip the caller's original request is observably
unchanged: every header key of the original maps to the same value list
before and after the call (the round trip only appends a fresh slice cell
for the clone's `Authorization` entry and never touches the original's
map or the cells it references). -/
theorem roundTrip_original_unchanged {E : Type}
    (fetcher : Option Token → Except E (Option Token))
    (st : Option Token) (now : Int) (heap : Heap) (req : Request)
    (key : String) (hwf : ∀ kv ∈ req.Header, kv.2 < heap.length) :
    headerValues (roundTrip fetcher st now heap req).heap req key
      = headerValues heap req key := by
  by_cases hg : nilOrExpired st now = true
  · cases hf : fetcher st with
    | error e => simp [roundTrip, refreshToken, hg, hf]
    | ok tk =>
      cases tk with
      | none => simp [roundTrip, refreshToken, hg, hf]
      | some t =>
        simp only [roundTrip, refreshToken, hg, hf, if_true]
        show headerValues (authorize heap req t).1 req key = headerValues heap req key
        exact headerValues_append_cell heap _ req key hwf
  · have hg' : nilOrExpired st now = false := by simpa using hg
    cases st with
    | none => simp [nilOrExpired] at hg'
    | some t =>
      simp only [roundTrip, hg', Bool.false_eq_true, if_false]
      show headerValues (authorize heap req t).1 req key = headerValues heap req key
      exact headerValues_append_cell heap _ req key hwf

/-- C8 witness: the round trip of `req0` (whose `"X-Test"` header lives in
cell `0` of the one-cell heap) leaves `req0`'s header readings unchanged,
both for the pre-existing key and for `"Authorization"` (absent before and
after on the original). -/
theorem roundTrip_original_unchanged_witness :
    headerValues (roundTrip (fun _ => (Except.ok (some ⟨"tok", "", "", 0⟩) :
        Except String (Option Token))) none 0 [["a"]] req0).heap req0 "X-Test"
      = headerValues [["a"]] req0 "X-Test" ∧
    headerValues (roundTrip (fun _ => (Except.ok (some ⟨"tok", "", "", 0⟩) :
        Except String (Option Token))) none 0 [["a"]] req0).heap req0 "Authorization"
      = headerValues [["a"]] req0 "Authorization" :=
  ⟨roundTrip_original_unchanged _ none 0 [["a"]] req0 "X-Test" (by decide),
   roundTrip_original_unchanged _ none 0 [["a"]] req0 "Authorization" (by decide)⟩

/-- C9: `Token()` returns nil when no token is stored; otherwise it
returns a pointer to a fresh cell (distinct from the stored one) whose
fields equal the stored token's, and mutating the returned cell does not
change what a subsequent `Token()` call observes of the stored token. -/
theorem getToken_returns_copy (heap : TokenHeap) (p : Nat) (t' : Token)
    (hp : p < heap.length) :
    (getToken heap none).2 = none ∧
    (getToken heap (some p)).2 ≠ some p ∧
    observeToken (getToken heap (some p)).1 (getToken heap (some p)).2
      = observeToken heap (some p) ∧
    observeToken
        (getToken ((getToken heap (some p)).1.set heap.length t') (some p)).1
        (getToken ((getToken heap (some p)).1.set heap.length t') (some p)).2
      = observeToken heap (some p) := by
  refine ⟨rfl, ?_, ?_, ?_⟩
  · intro hc
    have h2 : heap.length = p := by simpa [getToken] using hc
    omega
  · simp only [getToken, observeToken, Option.map_some']
    rw [getD_append_self]
  · simp only [getToken, observeToken, Option.map_some']
    rw [getD_append_self, getD_set_ne _ _ _ _ _ hp.ne',
      List.getD_append _ _ _ _ hp]

/-- C9 witness: a one-cell token heap; the copy returned by `getToken` is
mutated and a subsequent `getToken` still observes the original fields. -/
theorem getToken_returns_copy_witness :
    (getToken [⟨"x", "", "r", 7⟩] none).2 = none ∧
    (getToken [⟨"x", "", "r", 7⟩] (some 0)).2 ≠ some 0 ∧
    observeToken (getToken [⟨"x", "", "r", 7⟩] (some 0)).1
        (getToken [⟨"x", "", "r", 7⟩] (some 0)).2
      = observeToken [⟨"x", "", "r", 7⟩] (some 0) ∧
    observeToken
        (getToken ((getToken [⟨"x", "", "r", 7⟩] (some 0)).1.set 1
          ⟨"mut", "", "", 0⟩) (some 0)).1
        (getToken ((getToken [⟨"x", "", "r", 7⟩] (some 0)).1.set 1
          ⟨"mut", "", "", 0⟩) (some 0)).2
      = observeToken [⟨"x", "", "r", 7⟩] (some 0) :=
  getToken_returns_copy [⟨"x", "", "r", 7⟩] 0 ⟨"mut", "", "", 0⟩ (by decide)

/-- C10: after a successful refresh the round trip dereferences the
re-read token with no nil check; under the precondition that the fetcher
never returns success together with a nil token the dereference is safe
(no `nilPanic` outcome is possible), and without that precondition the
panic is reachable, as the concrete run with `badFetcher` shows. -/
theorem roundTrip_nilPanic_characterisation :
    (∀ (E : Type) (fetcher : Option Token → Except E (Option Token))
        (st : Option Token) (now : Int) (heap : Heap) (req : Request),
      (∀ s tk, fetcher s = Except.ok tk → tk ≠ none) →
      (roundTrip fetcher st now heap req).result ≠ RTResult.nilPanic) ∧
    (roundTrip badFetcher none 0 [] req0).result = RTResult.nilPanic := by
  constructor
  · intro E fetcher st now heap req hno hc
    by_cases hg : nilOrExpired st now = true
    · cases hf : fetcher st with
      | error e => simp [roundTrip, refreshToken, hg, hf] at hc
      | ok tk =>
        cases tk with
        | none => exact hno st none hf rfl
        | some t => simp [roundTrip, refreshToken, hg, hf] at hc
    · have hg' : nilOrExpired st now = false := by simpa using hg
      cases st with
      | none => simp [nilOrExpired] at hg'
      | some t => simp [roundTrip, hg'] at hc
  · rfl

end Aps
